import Mathlib

/-!
Verification development for the dprint formatter core.

The AST-to-document translator (`src/parsing/parser.ts`) is embedded as
executable Lean definitions: TypeScript generator functions become functions
returning `List PrintItem`, the mutable `Context` object becomes explicit
state passing, and babel AST nodes become the `BNode` inductive whose
constructors correspond one-to-one to the keys of the translator's dispatch
table (plus `other` for every node kind with no dedicated handler).
Comment identity (object identity in the source) is modelled by an integer
`id` on each comment; `Info` (marker) identity likewise by an integer handle
allocated from a counter in the context.

The wasm wrapper module (`src/unnamed/part_000`) is embedded at the end as
a small state machine over an abstract wasm instance.

Source line/column numbers are `Int` so that JavaScript arithmetic such as
`comment.loc.start.line - 1` is modelled exactly.
-/

namespace Dprint

/-- A source position as babel reports it (1-based line, 0-based column). -/
structure SrcPos where
  line : Int
  column : Int
deriving DecidableEq, Repr

/-- A babel source location span. -/
structure Loc where
  start : SrcPos
  stop : SrcPos
deriving DecidableEq, Repr

/-- The kind tag of a babel comment (`CommentLine` or `CommentBlock`). -/
inductive CommentKind where
  | commentLine
  | commentBlock
deriving DecidableEq, Repr

/-- A babel comment. `id` models JavaScript object identity, which the
translator relies on for its handled-comments set and `includes` checks. -/
structure Comment where
  id : Nat
  kind : CommentKind
  value : String
  loc : Loc
deriving DecidableEq, Repr

/-- The `Behaviour` signals of the print item language (`src/types.ts`,
referenced from the translator). -/
inductive Behaviour where
  | SpaceOrNewLine
  | ExpectNewLine
  | StartIndent
  | FinishIndent
  | StartHangingIndent
  | FinishHangingIndent
deriving DecidableEq, Repr

/-- An `Info` print item (a zero-width marker). `id` models reference
identity; `name` is the debug name passed to `createInfo`. -/
structure Info where
  id : Nat
  name : String
deriving DecidableEq, Repr

/-- The writer snapshot a condition can observe: the current cursor, and the
snapshot stored for a resolved `Info`. -/
structure WriterInfo where
  lineNumber : Nat
  columnNumber : Nat
  lineStartIndentLevel : Nat
deriving DecidableEq, Repr

/-- The resolution context handed to a condition's predicate: the current
writer state plus the (write-once, possibly not yet filled) marker table. -/
structure ResolveConditionContext where
  writerInfo : WriterInfo
  getResolvedInfo : Nat → Option WriterInfo

mutual

/-- A print item of the intermediate representation produced by the
translator. Strings yielded by the source generators become `text`; the
`Unknown` print item kind becomes `unknown`. -/
inductive PrintItem where
  | text : String → PrintItem
  | behaviour : Behaviour → PrintItem
  | info : Info → PrintItem
  | condition : Condition → PrintItem
  | group : List PrintItem → PrintItem
  | unknown : String → PrintItem

/-- A `Condition` print item: a name, a rule, and the optional `true` /
`false` item lists (named `whenTrue` / `whenFalse` here because `true` and
`false` are Lean keywords). -/
inductive Condition where
  | mk : String → ConditionRule → Option (List PrintItem) → Option (List PrintItem) → Condition

/-- The `condition` field of a `Condition`: either a predicate over the
resolution context returning a tri-state result (`none` models the
source's `undefined`, i.e. unresolved), or a reference to another
condition whose resolved outcome is reused. -/
inductive ConditionRule where
  | pred : (ResolveConditionContext → Option Bool) → ConditionRule
  | ref : Condition → ConditionRule

end

/-- The condition's debug name. -/
def Condition.name : Condition → String
  | .mk n _ _ _ => n

/-- The condition's rule. -/
def Condition.rule : Condition → ConditionRule
  | .mk _ r _ _ => r

/-- The condition's `true` branch. -/
def Condition.whenTrue : Condition → Option (List PrintItem)
  | .mk _ _ t _ => t

/-- The condition's `false` branch. -/
def Condition.whenFalse : Condition → Option (List PrintItem)
  | .mk _ _ _ f => f

/-- Evaluates a condition's own predicate at a resolution context. A
condition whose rule is a reference to another condition has no predicate
of its own, giving `none`. -/
def evalConditionAt (c : Condition) (rc : ResolveConditionContext) : Option Bool :=
  match c.rule with
  | .pred f => f rc
  | .ref _ => none

/-- The source-span and comment data every babel node carries
(`node.start`, `node.end`, `node.loc`, and the three comment lists; a
`null` comment list is modelled as `[]`, which is observationally equal
for every use in the translator). -/
structure NInfo where
  startOff : Nat
  endOff : Nat
  loc : Loc
  leadingComments : List Comment
  trailingComments : List Comment
  innerComments : List Comment
deriving DecidableEq, Repr

/-- A babel AST node, restricted to the shapes the translator reads.
There is one constructor per key of the translator's `parseObj` dispatch
table, plus `typeParameterDeclaration` (only reached through a direct call,
never through `parseNode`) and `other` for every node kind with no
dedicated handler. For `functionDeclaration`, `returnTypeAnn` holds the
return type's `typeAnnotation` when `node.returnType` is present and not a
`Noop` (inlining the wrapper the source unwraps in place). -/
inductive BNode where
  | program (info : NInfo) (body : List BNode)
  | blockStatement (info : NInfo) (body : List BNode)
  | identifier (info : NInfo) (name : String)
  | exportNamedDeclaration (info : NInfo) (declaration : Option BNode)
  | functionDeclaration (info : NInfo) (isAsync isGenerator : Bool) (id : Option BNode)
      (typeParams : Option BNode) (params : List BNode) ( returnTypeAnn : Option BNode)
      (body : BNode)
  | tsTypeAliasDeclaration (info : NInfo) (id : BNode) (typeParams : Option BNode)
      (typeAnn : BNode)
  | importDeclaration (info : NInfo) (specifiers : List BNode) (source : BNode)
  | expressionStatement (info : NInfo) (expression : BNode)
  | ifStatement (info : NInfo) (test : BNode) (consequent : BNode)
  | callExpression (info : NInfo) (callee : BNode) (arguments : List BNode)
  | importDefaultSpecifier (info : NInfo) (lcl : BNode)
  | importNamespaceSpecifier (info : NInfo) (lcl : BNode)
  | importSpecifier (info : NInfo) (imported : BNode) (lcl : BNode)
  | stringLiteral (info : NInfo) (value : String)
  | booleanLiteral (info : NInfo) (value : Bool)
  | tsStringKeyword (info : NInfo)
  | tsNumberKeyword (info : NInfo)
  | tsBooleanKeyword (info : NInfo)
  | tsAnyKeyword (info : NInfo)
  | tsUnknownKeyword (info : NInfo)
  | tsObjectKeyword (info : NInfo)
  | thisExpression (info : NInfo)
  | tsTypeParameter (info : NInfo) (name : String) (constraint : Option BNode)
      (dflt : Option BNode)
  | tsUnionType (info : NInfo) (types : List BNode)
  | typeParameterDeclaration (info : NInfo) (params : List BNode)
  | other (info : NInfo) (type : String) (bodyIsPresent : Bool)

/-- The `NInfo` record of a node. -/
def BNode.info : BNode → NInfo
  | .program i _ => i
  | .blockStatement i _ => i
  | .identifier i _ => i
  | .exportNamedDeclaration i _ => i
  | .functionDeclaration i _ _ _ _ _ _ _ => i
  | .tsTypeAliasDeclaration i _ _ _ => i
  | .importDeclaration i _ _ => i
  | .expressionStatement i _ => i
  | .ifStatement i _ _ => i
  | .callExpression i _ _ => i
  | .importDefaultSpecifier i _ => i
  | .importNamespaceSpecifier i _ => i
  | .importSpecifier i _ _ => i
  | .stringLiteral i _ => i
  | .booleanLiteral i _ => i
  | .tsStringKeyword i => i
  | .tsNumberKeyword i => i
  | .tsBooleanKeyword i => i
  | .tsAnyKeyword i => i
  | .tsUnknownKeyword i => i
  | .tsObjectKeyword i => i
  | .thisExpression i => i
  | .tsTypeParameter i _ _ _ => i
  | .tsUnionType i _ => i
  | .typeParameterDeclaration i _ => i
  | .other i _ _ => i

/-- The babel `type` string of a node. -/
def BNode.typeName : BNode → String
  | .program _ _ => "Program"
  | .blockStatement _ _ => "BlockStatement"
  | .identifier _ _ => "Identifier"
  | .exportNamedDeclaration _ _ => "ExportNamedDeclaration"
  | .functionDeclaration _ _ _ _ _ _ _ _ => "FunctionDeclaration"
  | .tsTypeAliasDeclaration _ _ _ _ => "TSTypeAliasDeclaration"
  | .importDeclaration _ _ _ => "ImportDeclaration"
  | .expressionStatement _ _ => "ExpressionStatement"
  | .ifStatement _ _ _ => "IfStatement"
  | .callExpression _ _ _ => "CallExpression"
  | .importDefaultSpecifier _ _ => "ImportDefaultSpecifier"
  | .importNamespaceSpecifier _ _ => "ImportNamespaceSpecifier"
  | .importSpecifier _ _ _ => "ImportSpecifier"
  | .stringLiteral _ _ => "StringLiteral"
  | .booleanLiteral _ _ => "BooleanLiteral"
  | .tsStringKeyword _ => "TSStringKeyword"
  | .tsNumberKeyword _ => "TSNumberKeyword"
  | .tsBooleanKeyword _ => "TSBooleanKeyword"
  | .tsAnyKeyword _ => "TSAnyKeyword"
  | .tsUnknownKeyword _ => "TSUnknownKeyword"
  | .tsObjectKeyword _ => "TSObjectKeyword"
  | .thisExpression _ => "ThisExpression"
  | .tsTypeParameter _ _ _ _ => "TSTypeParameter"
  | .tsUnionType _ _ => "TSUnionType"
  | .typeParameterDeclaration _ _ => "TSTypeParameterDeclaration"
  | .other _ t _ => t

/-- `node.loc`. -/
def BNode.loc (n : BNode) : Loc := n.info.loc

/-- `node.leadingComments` (with `null` as `[]`). -/
def BNode.leadingComments (n : BNode) : List Comment := n.info.leadingComments

/-- `node.trailingComments` (with `null` as `[]`). -/
def BNode.trailingComments (n : BNode) : List Comment := n.info.trailingComments

/-- `node.innerComments` (with `null` as `[]`). -/
def BNode.innerComments (n : BNode) : List Comment := n.info.innerComments

/-- The statement list of a `Program` or `BlockStatement` (the only node
kinds `parseStatements` is called with). -/
def BNode.bodyStatements : BNode → List BNode
  | .program _ b => b
  | .blockStatement _ b => b
  | _ => []

/-- `hasBody` from the source's checks section: whether the babel node has
a non-null `body` field. Of the modelled kinds, `Program`,
`BlockStatement` and `FunctionDeclaration` carry one; an unmodelled kind
carries one exactly when the original node does (`bodyIsPresent`). -/
def hasBody : BNode → Bool
  | .program _ _ => true
  | .blockStatement _ _ => true
  | .functionDeclaration _ _ _ _ _ _ _ _ => true
  | .other _ _ bodyIsPresent => bodyIsPresent
  | _ => false

end Dprint

namespace Dprint

/-- The resolved configuration fields the translator reads. The dotted
option keys of the source (`"importDeclaration.semiColon"` etc.) become
camel-cased fields. `newLineKind` is `"auto"`, `"\n"` or `"\r\n"`. -/
structure ResolvedConfiguration where
  singleQuotes : Bool
  newLineKind : String
  importDeclarationSemiColon : Bool
  expressionStatementSemiColon : Bool
  typeAliasSemiColon : Bool
deriving DecidableEq, Repr

/-- Whether a character list contains a carriage-return/line-feed pair. -/
def containsCrLf : List Char → Bool
  | [] => false
  | [_] => false
  | a :: b :: rest => (a == '\r' && b == '\n') || containsCrLf (b :: rest)

/-- Modelled from the spec: `resolveNewLineKindFromText` lives in
`src/configuration`, which is not among the provided sources. The spec
only requires that an `"auto"` newline kind is resolved from the file
text; this model picks `"\r\n"` when the text contains one and `"\n"`
otherwise. -/
def resolveNewLineKindFromText (fileText : String) : String :=
  if containsCrLf fileText.toList then "\r\n" else "\n"

/-- JavaScript `String.prototype.trim` on a character list
(whitespace at both ends removed). -/
def trimString (s : String) : String :=
  let ws : Char → Bool := fun c => c == ' ' || c == '\t' || c == '\n' || c == '\r'
  String.mk (((s.toList.dropWhile ws).reverse.dropWhile ws).reverse)

/-- The translator's per-file `Context`. The mutable handled-comments
`Set` becomes a list of comment ids; the `log` callback becomes an
accumulated message list; `infoCounter` allocates the marker identities
that are object references in the source. `currentNode` is `none` while
the context still points at the `babel.File` wrapper. -/
structure Context where
  fileText : String
  options : ResolvedConfiguration
  handledComments : List Nat
  currentNode : Option BNode
  parentStack : List (Option BNode)
  newLineKind : String
  logs : List String
  infoCounter : Nat

/-- `createInfo` of the source, with the fresh object identity modelled by
the context's counter. -/
def createInfo (name : String) (ctx : Context) : Info × Context :=
  (⟨ctx.infoCounter, name⟩, {ctx with infoCounter := ctx.infoCounter + 1})

/-- `surroundWithNewLines` of the source, on eagerly produced item lists. -/
def surroundWithNewLines (items : List PrintItem) (newLineKind : String) : List PrintItem :=
  PrintItem.text newLineKind :: items ++ [PrintItem.text newLineKind]

/-- `withIndent` of the source. -/
def withIndent (items : List PrintItem) : List PrintItem :=
  PrintItem.behaviour Behaviour.StartIndent :: items ++ [PrintItem.behaviour Behaviour.FinishIndent]

/-- `withHangingIndent` of the source. -/
def withHangingIndent (items : List PrintItem) : List PrintItem :=
  PrintItem.behaviour Behaviour.StartHangingIndent :: items
    ++ [PrintItem.behaviour Behaviour.FinishHangingIndent]

/-- `prependToIterableIfHasItems` of the source. -/
def prependToIterableIfHasItems (items : List PrintItem) (pre : List PrintItem) : List PrintItem :=
  match items with
  | [] => []
  | _ => pre ++ items

/-- `isMultipleLines` of the source: compares the resolved line numbers of
two markers, falling back to `defaultValue` while either is unresolved. -/
def isMultipleLines (startInfo endInfo : Info) (conditionContext : ResolveConditionContext)
    (defaultValue : Bool) : Bool :=
  match conditionContext.getResolvedInfo startInfo.id,
      conditionContext.getResolvedInfo endInfo.id with
  | some resolvedStartInfo, some resolvedEndInfo =>
    resolvedEndInfo.lineNumber > resolvedStartInfo.lineNumber
  | _, _ => defaultValue

/-- `areInfoEqual` of the source: whether two markers resolved to the same
line and column, falling back to `defaultValue` while either is
unresolved. -/
def areInfoEqual (startInfo endInfo : Info) (conditionContext : ResolveConditionContext)
    (defaultValue : Bool) : Bool :=
  match conditionContext.getResolvedInfo startInfo.id,
      conditionContext.getResolvedInfo endInfo.id with
  | some resolvedStartInfo, some resolvedEndInfo =>
    resolvedStartInfo.lineNumber == resolvedEndInfo.lineNumber
      && resolvedStartInfo.columnNumber == resolvedEndInfo.columnNumber
  | _, _ => defaultValue

/-- `getIsHangingCondition` of the source (defined there but never used). -/
def getIsHangingCondition (info : Info) : Condition :=
  Condition.mk "isHangingCondition"
    (ConditionRule.pred (fun conditionContext =>
      match conditionContext.getResolvedInfo info.id with
      | none => none
      | some resolvedInfo =>
        some (conditionContext.writerInfo.lineStartIndentLevel > resolvedInfo.lineStartIndentLevel)))
    none none

/-- `newLineIfHangingSpaceOtherwise` of the source. -/
def newLineIfHangingSpaceOtherwise (context : Context) (info : Info) : Condition :=
  Condition.mk "newLineIfHangingSpaceOtherwise"
    (ConditionRule.pred (fun conditionContext =>
      match conditionContext.getResolvedInfo info.id with
      | none => none
      | some resolvedInfo =>
        some (conditionContext.writerInfo.lineStartIndentLevel > resolvedInfo.lineStartIndentLevel)))
    (some [PrintItem.text context.newLineKind])
    (some [PrintItem.text " "])

/-- `getUseNewLinesForNodes` of the source: a list of zero or one nodes is
single-line; otherwise the first two nodes decide. -/
def getUseNewLinesForNodes (nodes : List BNode) : Bool :=
  match nodes with
  | a :: b :: _ =>
    if (a.loc).start.line == (b.loc).start.line then false else true
  | _ => false

/-- `useNewLinesForParametersOrArguments` of the source. -/
def useNewLinesForParametersOrArguments (params : List BNode) : Bool :=
  getUseNewLinesForNodes params

/-- `hasLeadingCommentOnDifferentLine` of the source (the `includes` check
on the ignore list uses comment identity). -/
def hasLeadingCommentOnDifferentLine (node : BNode) (commentsToIgnore : List Comment) : Bool :=
  node.leadingComments.any (fun c =>
    if commentsToIgnore.any (fun i => i.id == c.id) then false
    else c.kind == CommentKind.commentLine || decide ((c.loc).start.line < (node.loc).start.line))

/-- The items `parseComment` yields for a comment: a block comment as
`/*`, raw text, `*/`; a line comment as `//` plus the trimmed text and an
`ExpectNewLine` signal. -/
def commentContentItems (comment : Comment) : List PrintItem :=
  match comment.kind with
  | CommentKind.commentBlock =>
    [PrintItem.text "/*", PrintItem.text comment.value, PrintItem.text "*/"]
  | CommentKind.commentLine =>
    [PrintItem.text ("// " ++ trimString comment.value), PrintItem.behaviour Behaviour.ExpectNewLine]

/-- `parseComment` of the source: a comment already in the handled set
yields nothing; otherwise the comment is added to the set and its content
emitted. -/
def parseComment (comment : Comment) (context : Context) : List PrintItem × Context :=
  if context.handledComments.contains comment.id then
    ([], context)
  else
    (commentContentItems comment,
      {context with handledComments := comment.id :: context.handledComments})

/-- The previously emitted element `parseCommentCollection` measures
against: either a babel node or a comment. -/
inductive LastNode where
  | node (n : BNode)
  | comment (c : Comment)

/-- `lastNode.loc.end.line`. -/
def LastNode.endLine : LastNode → Int
  | .node n => (n.loc).stop.line
  | .comment c => c.loc.stop.line

/-- `lastNode.type === "CommentBlock"` (a babel node's `type` is never
`"CommentBlock"`). -/
def LastNode.isCommentBlock : LastNode → Bool
  | .node _ => false
  | .comment c => c.kind == CommentKind.commentBlock

/-- `parseCommentCollection` of the source: skips handled comments, emits
blank-line/newline/space separation against the previously emitted
element, then the comment itself, which becomes the next `lastNode`. -/
def parseCommentCollection (comments : List Comment) (lastNode : Option LastNode)
    (context : Context) : List PrintItem × Context :=
  match comments with
  | [] => ([], context)
  | comment :: rest =>
    if context.handledComments.contains comment.id then
      parseCommentCollection rest lastNode context
    else
      let spacing : List PrintItem :=
        match lastNode with
        | none => []
        | some ln =>
          (if ln.endLine < comment.loc.start.line - 1 then
            [PrintItem.text context.newLineKind, PrintItem.text context.newLineKind]
          else []) ++
          (if ln.endLine < comment.loc.start.line then
            [PrintItem.text context.newLineKind]
          else if comment.kind == CommentKind.commentLine then
            [PrintItem.text " "]
          else if ln.isCommentBlock then
            [PrintItem.text " "]
          else [])
      let (items, context1) := parseComment comment context
      let (restItems, context2) :=
        parseCommentCollection rest (some (LastNode.comment comment)) context1
      (spacing ++ items ++ restItems, context2)

/-- `parseLeadingComments` of the source. -/
def parseLeadingComments (node : BNode) (context : Context) : List PrintItem × Context :=
  parseCommentCollection node.leadingComments none context

/-- `parseTrailingComments` of the source: the node itself is the previous
element for spacing purposes. -/
def parseTrailingComments (node : BNode) (context : Context) : List PrintItem × Context :=
  parseCommentCollection node.trailingComments (some (LastNode.node node)) context

end Dprint

namespace Dprint

/-- The type of the recursive node-parsing function threaded through the
handlers (the translator's `parseNode`, partially applied to its fuel). -/
abbrev ParseNodeFn := Option BNode → Context → PrintItem × Context

/-- JavaScript `String.prototype.substring` on the code-point list of the
file text (offsets swap when given out of order, as in JavaScript). -/
def substringJS (s : String) (a b : Nat) : String :=
  String.mk ((s.toList.drop (min a b)).take (max a b - min a b))

/-- Splits a character list into its newline-separated lines. -/
def splitLinesChars : List Char → List (List Char)
  | [] => [[]]
  | c :: rest =>
    let r := splitLinesChars rest
    if c == '\n' then [] :: r
    else
      match r with
      | [] => [[c]]
      | l :: ls => (c :: l) :: ls

/-- Whether a line consists of blanks only. -/
def isBlankChars (l : List Char) : Bool := l.all (fun c => c == ' ' || c == '\t')

/-- The leading-space count of a line. -/
def indentOfChars (l : List Char) : Nat := (l.takeWhile (fun c => c == ' ')).length

/-- Joins lines back with newlines. -/
def joinLinesChars : List (List Char) → List Char
  | [] => []
  | [l] => l
  | l :: ls => l ++ '\n' :: joinLinesChars ls

/-- Modelled from the spec: `removeStringIndentation` lives in
`src/utils`, which is not among the provided sources. The spec calls it
de-indentation normalization of the copied source slice; this model
removes the largest common leading-space count of the non-blank lines
from every line. -/
def removeStringIndentation (text : String) : String :=
  let lines := splitLinesChars text.toList
  match lines.filter (fun l => !(isBlankChars l)) with
  | [] => text
  | l :: ls =>
    let m := ls.foldl (fun acc l2 => min acc (indentOfChars l2)) (indentOfChars l)
    String.mk (joinLinesChars (lines.map (fun l2 => l2.drop m)))

/-- `parseUnknownNode` of the source: logs the node kind and offending
text, and passes the de-indented original source slice through as an
`Unknown` print item. -/
def parseUnknownNode (node : BNode) (context : Context) : List PrintItem × Context :=
  let nodeText := substringJS context.fileText node.info.startOff node.info.endOff
  let context1 := {context with logs := context.logs ++
    ["Not implemented node type: " ++ node.typeName ++ " (" ++ nodeText ++ ")"]}
  ([PrintItem.unknown (removeStringIndentation nodeText)], context1)

/-- Backslash-escapes every occurrence of the delimiter character (the
source's global single-character regex replace). -/
def escapeQuoteChars (q : Char) : List Char → List Char
  | [] => []
  | c :: rest =>
    if c == q then '\\' :: c :: escapeQuoteChars q rest
    else c :: escapeQuoteChars q rest

/-- `parseStringLiteral` of the source: quote style from the resolved
configuration, escaping only the chosen delimiter. -/
def parseStringLiteral (value : String) (context : Context) : List PrintItem :=
  if context.options.singleQuotes then
    [PrintItem.text ("\x27" ++ String.mk (escapeQuoteChars '\x27' value.toList) ++ "\x27")]
  else
    [PrintItem.text ("\"" ++ String.mk (escapeQuoteChars '"' value.toList) ++ "\"")]

/-- `getFirstLineTrailingComments` nested in `parseBlockStatement`:
trailing comments starting on the block's opening line, each line comment
preceded by a space. -/
def getFirstLineTrailingComments (node : BNode) (context : Context) : List PrintItem × Context :=
  node.trailingComments.foldl
    (fun acc trailingComment =>
      if trailingComment.loc.start.line == (node.loc).start.line then
        let sp : List PrintItem :=
          if trailingComment.kind == CommentKind.commentLine then [PrintItem.text " "] else []
        let (items, c2) := parseComment trailingComment acc.2
        (acc.1 ++ sp ++ items, c2)
      else acc)
    (([] : List PrintItem), context)

/-- The loop of `parseStatements`, carrying the previous statement: a
newline separator before each statement after the first, doubled when
either neighbour has a body. -/
def parseStatementsAux (pn : ParseNodeFn) (newLineKind : String) (prev : Option BNode) :
    List BNode → Context → List PrintItem × Context
  | [], context => ([], context)
  | s :: rest, context =>
    let sep : List PrintItem :=
      match prev with
      | none => []
      | some p =>
        if hasBody p || hasBody s then [PrintItem.text newLineKind, PrintItem.text newLineKind]
        else [PrintItem.text newLineKind]
    let (g, context1) := pn (some s) context
    let (restItems, context2) := parseStatementsAux pn newLineKind (some s) rest context1
    (sep ++ g :: restItems, context2)

/-- `parseStatements` of the source (a `null` inner-comment list and an
empty one both contribute nothing). -/
def parseStatements (pn : ParseNodeFn) (block : BNode) (context : Context) :
    List PrintItem × Context :=
  let (items, context1) :=
    parseStatementsAux pn context.newLineKind none block.bodyStatements context
  let (innerItems, context2) := parseCommentCollection block.innerComments none context1
  (items ++ innerItems, context2)

/-- `parseProgram` of the source. -/
def parseProgram (pn : ParseNodeFn) (node : BNode) (context : Context) :
    List PrintItem × Context :=
  parseStatements pn node context

/-- `parseBlockStatement` of the source. -/
def parseBlockStatement (pn : ParseNodeFn) (node : BNode) (context : Context) :
    List PrintItem × Context :=
  let (flt, c1) := getFirstLineTrailingComments node context
  let (stmts, c2) := parseStatements pn node c1
  (PrintItem.text "\x7b" :: flt ++ PrintItem.text context.newLineKind :: withIndent stmts
    ++ [PrintItem.text "\x7d"], c2)

/-- The parameter-list loop shared by `parseParametersOrArguments` and
`parseNamedImports` (in the source, elements after the first are preceded
by a comma and a separator, which yields the same item sequence as a
separator after every non-final element). -/
def parseParameterList (pn : ParseNodeFn) (newLineKind : String) (useNewLines : Bool) :
    List BNode → Context → List PrintItem × Context
  | [], context => ([], context)
  | [param], context =>
    let (g, c1) := pn (some param) context
    ([g], c1)
  | param :: rest, context =>
    let (g, c1) := pn (some param) context
    let (restItems, c2) := parseParameterList pn newLineKind useNewLines rest c1
    (g :: PrintItem.text "," ::
      (if useNewLines then PrintItem.text newLineKind
       else PrintItem.behaviour Behaviour.SpaceOrNewLine) :: restItems, c2)

/-- `parseParametersOrArguments` of the source. -/
def parseParametersOrArguments (pn : ParseNodeFn) (params : List BNode) (context : Context) :
    List PrintItem × Context :=
  let useNewLines := useNewLinesForParametersOrArguments params
  let (inner, context1) := parseParameterList pn context.newLineKind useNewLines params context
  let middle :=
    if useNewLines then surroundWithNewLines (withIndent inner) context.newLineKind
    else withHangingIndent inner
  (PrintItem.text "(" :: middle ++ [PrintItem.text ")"], context1)

/-- The `params` field of a `TSTypeParameterDeclaration`. -/
def BNode.declarationParams : BNode → List BNode
  | .typeParameterDeclaration _ ps => ps
  | _ => []

/-- The parameter-list loop of `parseTypeParameterDeclaration` (the
separator there is always `SpaceOrNewLine`). -/
def parseTypeParameterList (pn : ParseNodeFn) : List BNode → Context → List PrintItem × Context
  | [], context => ([], context)
  | [param], context =>
    let (g, c1) := pn (some param) context
    ([g], c1)
  | param :: rest, context =>
    let (g, c1) := pn (some param) context
    let (restItems, c2) := parseTypeParameterList pn rest c1
    (g :: PrintItem.text "," :: PrintItem.behaviour Behaviour.SpaceOrNewLine :: restItems, c2)

/-- `parseTypeParameterDeclaration` of the source (called directly, not
through `parseNode`, so no comment wrapping). -/
def parseTypeParameterDeclaration (pn : ParseNodeFn) (declaration : BNode) (context : Context) :
    PrintItem × Context :=
  let useNewLines := getUseNewLinesForNodes declaration.declarationParams
  let (inner, context1) := parseTypeParameterList pn declaration.declarationParams context
  let middle :=
    if useNewLines then surroundWithNewLines (withIndent inner) context.newLineKind
    else withHangingIndent inner
  (PrintItem.group (PrintItem.text "<" :: middle ++ [PrintItem.text ">"]), context1)

/-- `getUseNewLines` nested in `parseImportDeclaration`: a single
named import on a line other than the declaration's forces multi-line;
otherwise the shared first-two-elements rule decides. -/
def importGetUseNewLines (node : BNode) (namedImports : List BNode) : Bool :=
  match namedImports with
  | [oneImport] =>
    if (oneImport.loc).start.line != (node.loc).start.line then true
    else getUseNewLinesForNodes namedImports
  | _ => getUseNewLinesForNodes namedImports

/-- `parseNamedImports` nested in `parseImportDeclaration`. -/
def parseNamedImports (pn : ParseNodeFn) (node : BNode) (namedImports : List BNode)
    (context : Context) : List PrintItem × Context :=
  match namedImports with
  | [] => ([], context)
  | _ =>
    let useNewLines := importGetUseNewLines node namedImports
    let braceSeparator : PrintItem :=
      if useNewLines then PrintItem.text context.newLineKind else PrintItem.text " "
    let (specItems, context1) :=
      parseParameterList pn context.newLineKind useNewLines namedImports context
    let body := if useNewLines then withIndent specItems else withHangingIndent specItems
    (PrintItem.text "\x7b" :: braceSeparator :: body ++ [braceSeparator, PrintItem.text "\x7d"],
      context1)

/-- `parseImportDeclaration` of the source. -/
def parseImportDeclaration (pn : ParseNodeFn) (node : BNode) (specifiers : List BNode)
    (source : BNode) (context : Context) : List PrintItem × Context :=
  let defaultImport := specifiers.find? (fun s => s.typeName == "ImportDefaultSpecifier")
  let namespaceImport := specifiers.find? (fun s => s.typeName == "ImportNamespaceSpecifier")
  let namedImports := specifiers.filter (fun s => s.typeName == "ImportSpecifier")
  let (diItems, c1) :=
    match defaultImport with
    | some di =>
      let (g, c) := pn (some di) context
      (g :: (if namespaceImport.isSome || namedImports.length > 0
        then [PrintItem.text ", "] else []), c)
    | none => ([], context)
  let (nsItems, c2) :=
    match namespaceImport with
    | some ns =>
      let (g, c) := pn (some ns) c1
      ([g], c)
    | none => ([], c1)
  let (namedItems, c3) := parseNamedImports pn node namedImports c2
  let fromItems : List PrintItem :=
    if defaultImport.isSome || namespaceImport.isSome || namedImports.length > 0 then
      [PrintItem.text " from "]
    else []
  let (srcG, c4) := pn (some source) c3
  let semi : List PrintItem :=
    if context.options.importDeclarationSemiColon then [PrintItem.text ";"] else []
  (PrintItem.text "import " :: diItems ++ nsItems ++ namedItems ++ fromItems ++ [srcG] ++ semi, c4)

/-- `parseImportSpecifier` of the source: when `imported` and `local` are
the same object (equal start offsets), only the imported name is printed. -/
def parseImportSpecifier (pn : ParseNodeFn) (imported lcl : BNode) (context : Context) :
    List PrintItem × Context :=
  if imported.info.startOff == lcl.info.startOff then
    let (g, c) := pn (some imported) context
    ([g], c)
  else
    let (g1, c1) := pn (some imported) context
    let (g2, c2) := pn (some lcl) c1
    ([g1, PrintItem.text " as ", g2], c2)

/-- `parseExportNamedDeclaration` of the source. -/
def parseExportNamedDeclaration (pn : ParseNodeFn) (declaration : Option BNode)
    (context : Context) : List PrintItem × Context :=
  let (g, c1) := pn declaration context
  ([PrintItem.text "export ", g], c1)

/-- `parseFunctionDeclaration` of the source. -/
def parseFunctionDeclaration (pn : ParseNodeFn) (isAsync isGenerator : Bool)
    (id typeParams : Option BNode) (params : List BNode) (returnTypeAnn : Option BNode)
    (body : BNode) (context : Context) : List PrintItem × Context :=
  let (functionHeaderStartInfo, c1) := createInfo "functionHeaderStart" context
  let head : List PrintItem :=
    PrintItem.info functionHeaderStartInfo ::
      (if isAsync then [PrintItem.text "async "] else []) ++ [PrintItem.text "function"]
      ++ (if isGenerator then [PrintItem.text "*"] else [])
  let (idItems, c2) :=
    match id with
    | some idNode =>
      let (g, c) := pn (some idNode) c1
      ([PrintItem.text " ", g], c)
    | none => ([], c1)
  let (tpItems, c3) :=
    match typeParams with
    | some tp =>
      if tp.typeName != "Noop" then
        let (g, c) := parseTypeParameterDeclaration pn tp c2
        ([g], c)
      else ([], c2)
    | none => ([], c2)
  let (paramItems, c4) := parseParametersOrArguments pn params c3
  let (rtItems, c5) :=
    match returnTypeAnn with
    | some rt =>
      let (g, c) := pn (some rt) c4
      ([PrintItem.text ": ", g], c)
    | none => ([], c4)
  let (bodyG, c6) := pn (some body) c5
  (head ++ idItems ++ tpItems ++ paramItems ++ rtItems
    ++ [PrintItem.condition (newLineIfHangingSpaceOtherwise context functionHeaderStartInfo),
      bodyG], c6)

/-- `parseTypeAlias` of the source. -/
def parseTypeAlias (pn : ParseNodeFn) (id : BNode) (typeParams : Option BNode) (typeAnn : BNode)
    (context : Context) : List PrintItem × Context :=
  let (idG, c1) := pn (some id) context
  let (tpItems, c2) :=
    match typeParams with
    | some tp =>
      let (g, c) := parseTypeParameterDeclaration pn tp c1
      ([g], c)
    | none => ([], c1)
  let (annG, c3) := pn (some typeAnn) c2
  let semi : List PrintItem :=
    if context.options.typeAliasSemiColon then [PrintItem.text ";"] else []
  (PrintItem.text "type " :: idG :: tpItems ++ PrintItem.text " = " :: annG :: semi, c3)

/-- `parseExpressionStatement` of the source. -/
def parseExpressionStatement (pn : ParseNodeFn) (expression : BNode) (context : Context) :
    List PrintItem × Context :=
  let (g, c1) := pn (some expression) context
  (g :: (if context.options.expressionStatementSemiColon then [PrintItem.text ";"] else []), c1)

/-- `getHeaderTrailingComments` nested in `parseIfStatement`: the comments
that belong to the `if` header line rather than to the body. -/
def getHeaderTrailingComments (consequent : BNode) : List Comment :=
  match consequent with
  | .blockStatement info body =>
    match info.leadingComments.find? (fun c => c.kind == CommentKind.commentLine) with
    | some commentLine => [commentLine]
    | none =>
      match body with
      | first :: _ =>
        first.leadingComments.filter (fun c => c.loc.start.line == info.loc.start.line)
      | [] =>
        info.innerComments.filter (fun c => c.loc.start.line == info.loc.start.line)
  | _ =>
    consequent.leadingComments.filter
      (fun c => c.loc.start.line == (consequent.loc).start.line)

/-- `consequentRequiresBraces` nested in `parseIfStatement`. -/
def consequentRequiresBraces (statement : BNode) (headerTrailingComments : List Comment) : Bool :=
  match statement with
  | .blockStatement _ body =>
    match body with
    | [single] =>
      if !(hasLeadingCommentOnDifferentLine single headerTrailingComments) then false else true
    | _ => true
  | _ => hasLeadingCommentOnDifferentLine statement headerTrailingComments

/-- The `openBraceCondition` of `parseIfStatement`: braces are written when
statically required or when either the header or the statements region
resolved to multiple lines (unresolved markers defaulting to `false`). -/
def openBraceCondition (context : Context) (requireBraces : Bool)
    (startHeaderInfo endHeaderInfo startStatementsInfo endStatementsInfo : Info) : Condition :=
  Condition.mk "openBrace"
    (ConditionRule.pred (fun conditionContext =>
      some (requireBraces
        || isMultipleLines startHeaderInfo endHeaderInfo conditionContext false
        || isMultipleLines startStatementsInfo endStatementsInfo conditionContext false)))
    (some [PrintItem.condition (newLineIfHangingSpaceOtherwise context startHeaderInfo),
      PrintItem.text "\x7b"])
    none

/-- The `closeBraceNewLine` condition nested in the close-brace condition
of `parseIfStatement`. -/
def closeBraceNewLineCondition (context : Context)
    (startStatementsInfo endStatementsInfo : Info) : Condition :=
  Condition.mk "closeBraceNewLine"
    (ConditionRule.pred (fun conditionContext =>
      some (!(areInfoEqual startStatementsInfo endStatementsInfo conditionContext false))))
    (some [PrintItem.text context.newLineKind])
    none

/-- The `closeBrace` condition of `parseIfStatement`: its condition is the
open-brace condition itself (outcome reuse), and its `true` branch is the
conditional newline followed by the closing brace. -/
def closeBraceCondition (context : Context) (openBrace : Condition)
    (startStatementsInfo endStatementsInfo : Info) : Condition :=
  Condition.mk "closeBrace" (ConditionRule.ref openBrace)
    (some [PrintItem.condition
        (closeBraceNewLineCondition context startStatementsInfo endStatementsInfo),
      PrintItem.text "\x7d"])
    none

/-- `parseIfStatement` of the source. -/
def parseIfStatement (pn : ParseNodeFn) (test consequent : BNode) (context : Context) :
    List PrintItem × Context :=
  let (startHeaderInfo, c1) := createInfo "startHeader" context
  let (testG, c2) := pn (some test) c1
  let (endHeaderInfo, c3) := createInfo "endHeader" c2
  let headerTrailingComments := getHeaderTrailingComments consequent
  let requireBraces := consequentRequiresBraces consequent headerTrailingComments
  let (startStatementsInfo, c4) := createInfo "startStatements" c3
  let (endStatementsInfo, c5) := createInfo "endStatements" c4
  let obc := openBraceCondition context requireBraces startHeaderInfo endHeaderInfo
    startStatementsInfo endStatementsInfo
  let (htItems, c6) := parseCommentCollection headerTrailingComments none c5
  let headerTrailing := prependToIterableIfHasItems htItems [PrintItem.text " "]
  let (bodyItems, c7) :=
    match consequent with
    | .blockStatement _ _ =>
      let (lead, d1) := parseLeadingComments consequent c6
      let (stmts, d2) := parseStatements pn consequent d1
      let (trail, d3) := parseTrailingComments consequent d2
      (withIndent (lead ++ stmts) ++ trail, d3)
    | _ =>
      let (g, d1) := pn (some consequent) c6
      (withIndent [g], d1)
  let cbc := closeBraceCondition context obc startStatementsInfo endStatementsInfo
  (PrintItem.info startHeaderInfo :: PrintItem.text "if (" :: testG :: PrintItem.text ")" ::
    PrintItem.info endHeaderInfo :: PrintItem.condition obc :: headerTrailing
    ++ PrintItem.text context.newLineKind :: PrintItem.info startStatementsInfo :: bodyItems
    ++ [PrintItem.info endStatementsInfo, PrintItem.condition cbc], c7)

/-- `parseCallExpression` of the source. -/
def parseCallExpression (pn : ParseNodeFn) (callee : BNode) (arguments : List BNode)
    (context : Context) : List PrintItem × Context :=
  let (g, c1) := pn (some callee) context
  let (argItems, c2) := parseParametersOrArguments pn arguments c1
  (g :: argItems, c2)

/-- `parseTypeParameter` of the source (`TSTypeParameter`). -/
def parseTypeParameter (pn : ParseNodeFn) (name : String) (constraint dflt : Option BNode)
    (context : Context) : List PrintItem × Context :=
  let (cItems, c1) :=
    match constraint with
    | some con =>
      let (g, cc) := pn (some con) context
      ([PrintItem.text " extends ", g], cc)
    | none => ([], context)
  let (dItems, c2) :=
    match dflt with
    | some d =>
      let (g, cc) := pn (some d) c1
      ([PrintItem.text " = ", g], cc)
    | none => ([], c1)
  (PrintItem.text name :: cItems ++ dItems, c2)

/-- The member loop of `parseUnionType`: members after the first are
preceded by the separator and `"| "`. -/
def parseUnionTypesList (pn : ParseNodeFn) (newLineKind : String) (useNewLines : Bool) :
    List BNode → Context → List PrintItem × Context
  | [], context => ([], context)
  | [t], context =>
    let (g, c) := pn (some t) context
    ([g], c)
  | t :: rest, context =>
    let (g, c1) := pn (some t) context
    let (restItems, c2) := parseUnionTypesList pn newLineKind useNewLines rest c1
    (g :: (if useNewLines then PrintItem.text newLineKind
        else PrintItem.behaviour Behaviour.SpaceOrNewLine) :: PrintItem.text "| " :: restItems,
      c2)

/-- `parseUnionType` of the source. -/
def parseUnionType (pn : ParseNodeFn) (types : List BNode) (context : Context) :
    List PrintItem × Context :=
  let useNewLines := getUseNewLinesForNodes types
  let (inner, c1) := parseUnionTypesList pn context.newLineKind useNewLines types context
  (withHangingIndent inner, c1)

/-- The body of `parseNode` for a non-null node: parent-stack bookkeeping,
dispatch over the node kind (falling back to `parseUnknownNode`), and the
leading/trailing comment wrapping of `getWithComments`, in the order the
source's lazy generators take effect. `TSTypeParameterDeclaration` has no
entry in the dispatch table, so it too falls back to `parseUnknownNode`. -/
def parseNodeF (pn : ParseNodeFn) (node : BNode) (context0 : Context) : PrintItem × Context :=
  let context := {context0 with
    parentStack := context0.currentNode :: context0.parentStack,
    currentNode := some node}
  let (lead, c1) := parseLeadingComments node context
  let (mainItems, c2) :=
    match node with
    | .program _ _ => parseProgram pn node c1
    | .blockStatement _ _ => parseBlockStatement pn node c1
    | .identifier _ name => ([PrintItem.text name], c1)
    | .exportNamedDeclaration _ declaration => parseExportNamedDeclaration pn declaration c1
    | .functionDeclaration _ isAsync isGenerator id tp ps rt b =>
      parseFunctionDeclaration pn isAsync isGenerator id tp ps rt b c1
    | .tsTypeAliasDeclaration _ id tp ann => parseTypeAlias pn id tp ann c1
    | .importDeclaration _ specs src => parseImportDeclaration pn node specs src c1
    | .expressionStatement _ e => parseExpressionStatement pn e c1
    | .ifStatement _ t cons => parseIfStatement pn t cons c1
    | .callExpression _ callee args => parseCallExpression pn callee args c1
    | .importDefaultSpecifier _ l =>
      let (g, c) := pn (some l) c1
      ([g], c)
    | .importNamespaceSpecifier _ l =>
      let (g, c) := pn (some l) c1
      ([PrintItem.text "* as ", g], c)
    | .importSpecifier _ imp l => parseImportSpecifier pn imp l c1
    | .stringLiteral _ v => (parseStringLiteral v c1, c1)
    | .booleanLiteral _ v => ([PrintItem.text (if v then "true" else "false")], c1)
    | .tsStringKeyword _ => ([PrintItem.text "string"], c1)
    | .tsNumberKeyword _ => ([PrintItem.text "number"], c1)
    | .tsBooleanKeyword _ => ([PrintItem.text "boolean"], c1)
    | .tsAnyKeyword _ => ([PrintItem.text "any"], c1)
    | .tsUnknownKeyword _ => ([PrintItem.text "unknown"], c1)
    | .tsObjectKeyword _ => ([PrintItem.text "object"], c1)
    | .thisExpression _ => ([PrintItem.text "this"], c1)
    | .tsTypeParameter _ name con d => parseTypeParameter pn name con d c1
    | .tsUnionType _ types => parseUnionType pn types c1
    | .typeParameterDeclaration _ _ => parseUnknownNode node c1
    | .other _ _ _ => parseUnknownNode node c1
  let (trail, c3) := parseTrailingComments node c2
  let c4 := {c3 with
    currentNode := c3.parentStack.headD none,
    parentStack := c3.parentStack.tail}
  (PrintItem.group (lead ++ mainItems ++ trail), c4)

/-- `parseNode` of the source, with a fuel argument making the recursion
over child nodes structural (the source recursion is bounded by the AST
depth; every theorem below either holds for all fuel or supplies enough
fuel for the nodes involved). A `null` node gives an empty group without
touching the context. -/
def parseNode : Nat → Option BNode → Context → PrintItem × Context
  | _, none, context => (PrintItem.group [], context)
  | 0, some _, context => (PrintItem.group [], context)
  | fuel + 1, some node, context => parseNodeF (parseNode fuel) node context

/-- A `babel.File`: the translator only reads its `program`. -/
structure BabelFile where
  program : BNode

/-- The `endOfFileNewLine` condition of `parseFile`: a final newline is
emitted only when the writer has moved past column 0 or line 0. -/
def endOfFileNewLineCondition (newLineKind : String) : Condition :=
  Condition.mk "endOfFileNewLine"
    (ConditionRule.pred (fun conditionContext =>
      some (decide (conditionContext.writerInfo.columnNumber > 0)
        || decide (conditionContext.writerInfo.lineNumber > 0))))
    (some [PrintItem.text newLineKind])
    none

/-- The context `parseFile` constructs (its `currentNode` starts at the
`babel.File` wrapper, which has no `BNode` constructor, hence `none`). -/
def initialContext (fileText : String) (options : ResolvedConfiguration) : Context :=
  { fileText := fileText
    options := options
    handledComments := []
    currentNode := none
    parentStack := []
    newLineKind :=
      if options.newLineKind == "auto" then resolveNewLineKindFromText fileText
      else options.newLineKind
    logs := []
    infoCounter := 0 }

/-- `parseFile` of the source: one root group holding the parsed program
followed by the trailing-newline condition. -/
def parseFile (file : BabelFile) (fileText : String) (options : ResolvedConfiguration)
    (fuel : Nat) : PrintItem :=
  let context := initialContext fileText options
  let (programG, _) := parseNode fuel (some file.program) context
  PrintItem.group [programG, PrintItem.condition (endOfFileNewLineCondition context.newLineKind)]

end Dprint

namespace Dprint

/-- The wasm instance exports as the wrapper observes them: the response
code of `format()` and the strings fetched back through the shared-byte
transfer (`receiveString` of `get_formatted_text`, `get_error_text`,
`get_config_diagnostics`, `get_resolved_config`); the chunked byte
shuttling itself is I/O and is abstracted into these result strings. -/
structure WasmExports where
  formatResult : Nat
  formattedText : String
  errorText : String
  configDiagnostics : String
  resolvedConfigText : String
deriving DecidableEq, Repr

/-- The formatter object `createFromInstance` returns, with its captured
mutable `configSet` flag. -/
structure WasmFormatter where
  configSet : Bool
  exports : WasmExports
deriving DecidableEq, Repr

/-- The message thrown while the configuration has not been set. -/
def configNotSetMessage : String := "You must call setConfig before calling this function."

/-- `throwIfConfigNotSet` of the wasm wrapper. -/
def throwIfConfigNotSet (f : WasmFormatter) : Except String Unit :=
  if !f.configSet then Except.error configNotSetMessage else Except.ok ()

/-- `setConfig` of the wasm wrapper: sends both configuration objects to
the instance and flips the flag (the payloads only affect the instance's
own state, abstracted here). -/
def setConfig (f : WasmFormatter) (_globalConfig _pluginConfig : String) : WasmFormatter :=
  {f with configSet := true}

/-- `formatText` of the wasm wrapper: code 0 returns the input unchanged,
code 1 fetches the formatted text, code 2 throws the instance's error
text; any other code falls off the `switch` (JavaScript `undefined`,
modelled as `none`). -/
def formatText (f : WasmFormatter) (_filePath fileText : String) : Except String (Option String) :=
  match throwIfConfigNotSet f with
  | Except.error e => Except.error e
  | Except.ok _ =>
    match f.exports.formatResult with
    | 0 => Except.ok (some fileText)
    | 1 => Except.ok (some f.exports.formattedText)
    | 2 => Except.error f.exports.errorText
    | _ => Except.ok none

/-- `getConfigDiagnostics` of the wasm wrapper. -/
def getConfigDiagnostics (f : WasmFormatter) : Except String String :=
  match throwIfConfigNotSet f with
  | Except.error e => Except.error e
  | Except.ok _ => Except.ok f.exports.configDiagnostics

/-- `getResolvedConfig` of the wasm wrapper. -/
def getResolvedConfig (f : WasmFormatter) : Except String String :=
  match throwIfConfigNotSet f with
  | Except.error e => Except.error e
  | Except.ok _ => Except.ok f.exports.resolvedConfigText

/-- Modelled from the spec: the resolution engine is not among the
provided sources (only the translator is). This is the sequential part of
the engine the spec describes — a cursor of line/column, a write-once
marker table, lazy condition evaluation with the `whenFalse` branch on an
unresolved predicate — without the width-aware flat-trial machinery,
which no theorem below exercises. -/
structure WriterState where
  out : String
  lineNumber : Nat
  columnNumber : Nat
  indentLevel : Nat
  resolvedInfos : List (Nat × WriterInfo)

/-- The engine's starting state: line 0, column 0, empty output. -/
def initialWriterState : WriterState :=
  { out := "", lineNumber := 0, columnNumber := 0, indentLevel := 0, resolvedInfos := [] }

/-- Modelled from the spec: committing literal text moves the cursor,
embedded newlines advancing the line counter. -/
def writeTextToWriter (s : String) (w : WriterState) : WriterState :=
  s.toList.foldl
    (fun w2 ch =>
      if ch == '\n' then
        {w2 with out := w2.out.push ch, lineNumber := w2.lineNumber + 1, columnNumber := 0}
      else {w2 with out := w2.out.push ch, columnNumber := w2.columnNumber + 1})
    w

/-- The resolution context the engine hands to condition predicates. -/
def writerConditionContext (w : WriterState) : ResolveConditionContext :=
  ⟨⟨w.lineNumber, w.columnNumber, w.indentLevel⟩,
    fun i => (w.resolvedInfos.find? (fun p => p.1 == i)).map Prod.snd⟩

/-- Modelled from the spec: a referenced condition's outcome, re-derived
from its own predicate at the current state (the engine proper caches the
outcome; every predicate in this program is a pure function of resolved
markers, for which the two agree). -/
def evalConditionValue : Nat → Condition → WriterState → Option Bool
  | 0, _, _ => none
  | fuel + 1, c, w =>
    match c.rule with
    | .pred f => f (writerConditionContext w)
    | .ref c2 => evalConditionValue fuel c2 w

/-- Modelled from the spec: the engine's single pass over the items. -/
def renderItems (newLineKind : String) : Nat → List PrintItem → WriterState → WriterState
  | 0, _, w => w
  | _, [], w => w
  | fuel + 1, item :: rest, w =>
    let w1 :=
      match item with
      | .text s => writeTextToWriter s w
      | .unknown s => writeTextToWriter s w
      | .behaviour b =>
        match b with
        | .SpaceOrNewLine => writeTextToWriter " " w
        | .ExpectNewLine =>
          if w.columnNumber > 0 then writeTextToWriter newLineKind w else w
        | .StartIndent => {w with indentLevel := w.indentLevel + 1}
        | .FinishIndent => {w with indentLevel := w.indentLevel - 1}
        | .StartHangingIndent => w
        | .FinishHangingIndent => w
      | .info i =>
        if (w.resolvedInfos.find? (fun p => p.1 == i.id)).isSome then w
        else {w with resolvedInfos :=
          (i.id, ⟨w.lineNumber, w.columnNumber, w.indentLevel⟩) :: w.resolvedInfos}
      | .condition c =>
        match evalConditionValue (fuel + 1) c w with
        | some true =>
          match c.whenTrue with
          | some items => renderItems newLineKind fuel items w
          | none => w
        | _ =>
          match c.whenFalse with
          | some items => renderItems newLineKind fuel items w
          | none => w
      | .group items => renderItems newLineKind fuel items w
    renderItems newLineKind fuel rest w1

/-- Modelled from the spec: resolving one document to its final text. -/
def renderDocument (fuel : Nat) (doc : PrintItem) (newLineKind : String) : String :=
  (renderItems newLineKind fuel [doc] initialWriterState).out

end Dprint

namespace Dprint

/-- Claim-side reading of the open-brace predicate's marker test: the two
markers resolve to different lines, an unresolved marker defaulting to
`false`. -/
def markersResolveToDifferentLines (startInfo endInfo : Info)
    (rc : ResolveConditionContext) : Bool :=
  match rc.getResolvedInfo startInfo.id, rc.getResolvedInfo endInfo.id with
  | some s, some e => s.lineNumber != e.lineNumber
  | _, _ => false

/-- The engine invariant the open-brace claim relies on: an end marker
placed after a start marker never resolves to an earlier line. -/
def resolvedLinesOrdered (rc : ResolveConditionContext) (startInfo endInfo : Info) : Prop :=
  ∀ s e, rc.getResolvedInfo startInfo.id = some s → rc.getResolvedInfo endInfo.id = some e →
    s.lineNumber ≤ e.lineNumber

/-- Claim-side reading of the static braces-required flag, first half: the
candidate body is exactly one statement (a block with a single statement,
or a bare non-block statement). -/
def bodyIsExactlyOneStatement : BNode → Bool
  | .blockStatement _ body => body.length == 1
  | _ => true

/-- Claim-side reading of the static braces-required flag, second half:
the candidate body statement already carries disqualifying leading
comments (a line comment, or a comment starting on an earlier line),
ignoring the header's same-line trailing comments. -/
def bodyCarriesDisqualifyingComment (stmt : BNode) (ignore : List Comment) : Bool :=
  match stmt with
  | .blockStatement _ body =>
    match body with
    | [s] => hasLeadingCommentOnDifferentLine s ignore
    | _ => false
  | s => hasLeadingCommentOnDifferentLine s ignore

/-- Claim-side amended multi-line rule for delimited lists: the first two
elements decide; a list of fewer than two elements is single-line. -/
def useNewLinesSpecAmended : List BNode → Bool
  | a :: b :: _ => (a.loc).start.line != (b.loc).start.line
  | _ => false

/-- Claim-side amended comment spacing: three hard newlines when the
comment starts more than one line after the previous element, one when
exactly one line after, and on the same line a space only for a line
comment or after a block comment. -/
def commentSpacingSpec (newLineKind : String) (last : LastNode) (comment : Comment) :
    List PrintItem :=
  if last.endLine < comment.loc.start.line - 1 then
    [PrintItem.text newLineKind, PrintItem.text newLineKind, PrintItem.text newLineKind]
  else if last.endLine < comment.loc.start.line then
    [PrintItem.text newLineKind]
  else if comment.kind == CommentKind.commentLine then
    [PrintItem.text " "]
  else if last.isCommentBlock then
    [PrintItem.text " "]
  else []

/-- Claim-side statement separator: one hard newline, doubled when either
neighbour carries a body block. -/
def statementSeparatorSpec (newLineKind : String) (prev cur : BNode) : List PrintItem :=
  if hasBody prev || hasBody cur then
    [PrintItem.text newLineKind, PrintItem.text newLineKind]
  else [PrintItem.text newLineKind]

/-- Each statement of a sequence paired with its rendered group, the
context threaded left to right. -/
def renderStatementsSpec (pn : ParseNodeFn) :
    List BNode → Context → List (BNode × PrintItem) × Context
  | [], context => ([], context)
  | s :: rest, context =>
    let (g, c1) := pn (some s) context
    let (r, c2) := renderStatementsSpec pn rest c1
    ((s, g) :: r, c2)

/-- Claim-side statement sequence layout: rendered statements joined with
`statementSeparatorSpec` between adjacent pairs, and nothing else. -/
def interleaveStatementsSpec (newLineKind : String) :
    Option BNode → List (BNode × PrintItem) → List PrintItem
  | _, [] => []
  | none, (s, g) :: rest => g :: interleaveStatementsSpec newLineKind (some s) rest
  | some p, (s, g) :: rest =>
    statementSeparatorSpec newLineKind p s
      ++ g :: interleaveStatementsSpec newLineKind (some s) rest

/-- A concrete configuration for witnesses: double quotes, `"\n"` newlines,
all semicolon flags on. -/
def defaultOptions : ResolvedConfiguration :=
  { singleQuotes := false
    newLineKind := "\n"
    importDeclarationSemiColon := true
    expressionStatementSemiColon := true
    typeAliasSemiColon := true }

end Dprint

namespace Dprint

/-- C10: for a null node argument, `parseNode` returns an empty `Group`
without failing and without touching the context, so an absent optional
child contributes no output. -/
theorem C10_parse_node_null_gives_empty_group (fuel : Nat) (context : Context) :
    parseNode fuel none context = (PrintItem.group [], context) := by
  cases fuel <;> rfl

/-- A parameter starting on source line 2. -/
def singleParamLine2 : BNode :=
  BNode.identifier ⟨10, 11, ⟨⟨2, 4⟩, ⟨2, 5⟩⟩, [], [], []⟩ "p"

/-- A function declaration opening on source line 1 whose only parameter
is `singleParamLine2`. -/
def enclosingFnLine1 : BNode :=
  BNode.functionDeclaration ⟨0, 20, ⟨⟨1, 0⟩, ⟨3, 1⟩⟩, [], [], []⟩ false false
    (some (BNode.identifier ⟨9, 10, ⟨⟨1, 9⟩, ⟨1, 10⟩⟩, [], [], []⟩ "f"))
    none [singleParamLine2] none
    (BNode.blockStatement ⟨15, 17, ⟨⟨3, 0⟩, ⟨3, 1⟩⟩, [], [], []⟩ [])

/-- C2 counterexample: a single-element parameter list whose element's
source line (2) differs from the enclosing construct's opening line (1)
is still laid out single-line — `useNewLinesForParametersOrArguments`
never consults the enclosing construct and returns `false` for every
single-element list, contradicting the claim's single-element rule for
parameter lists. -/
theorem C2_single_element_parameter_counterexample :
    useNewLinesForParametersOrArguments [singleParamLine2] = false
    ∧ (singleParamLine2.loc).start.line = 2
    ∧ (enclosingFnLine1.loc).start.line = 1 := by
  refine ⟨rfl, rfl, rfl⟩

/-- C2 amended: only named-import specifier lists apply the
single-element rule (`importGetUseNewLines`); for parameter/argument,
type-parameter and union-type lists a single-element list is never
multi-line, and every multi-element list is multi-line exactly when its
first two elements start on different source lines. -/
theorem C2_amended_source_line_rules :
    (∀ params, useNewLinesForParametersOrArguments params = useNewLinesSpecAmended params)
    ∧ (∀ nodes, getUseNewLinesForNodes nodes = useNewLinesSpecAmended nodes)
    ∧ (∀ node oneImport, importGetUseNewLines node [oneImport]
        = ((oneImport.loc).start.line != (node.loc).start.line))
    ∧ (∀ node a b rest, importGetUseNewLines node (a :: b :: rest)
        = useNewLinesSpecAmended (a :: b :: rest)) := by
  have hbase : ∀ nodes, getUseNewLinesForNodes nodes = useNewLinesSpecAmended nodes := by
    intro nodes
    match nodes with
    | [] => rfl
    | [a] => rfl
    | a :: b :: rest =>
      simp only [getUseNewLinesForNodes, useNewLinesSpecAmended]
      cases h : (a.loc).start.line == (b.loc).start.line <;> simp [bne, h]
  refine ⟨fun params => hbase params, hbase, ?_, ?_⟩
  · intro node oneImport
    simp only [importGetUseNewLines]
    cases h : (oneImport.loc).start.line != (node.loc).start.line <;>
      simp [h, getUseNewLinesForNodes]
  · intro node a b rest
    simpa only [importGetUseNewLines] using hbase (a :: b :: rest)

/-- C9: on the wasm wrapper, the three gated entry points throw the
config-not-set message before `setConfig`, and after `setConfig` the
`formatText` result follows the `format()` response code: 0 returns the
input unchanged, 1 the fetched formatted text, 2 throws the instance's
error text. -/
theorem C9_wasm_wrapper_gating (f : WasmFormatter) (filePath fileText gc pc : String) :
    configNotSetMessage = "You must call setConfig before calling this function."
    ∧ (f.configSet = false →
        formatText f filePath fileText = Except.error configNotSetMessage
        ∧ getConfigDiagnostics f = Except.error configNotSetMessage
        ∧ getResolvedConfig f = Except.error configNotSetMessage)
    ∧ ((setConfig f gc pc).exports.formatResult = 0 →
        formatText (setConfig f gc pc) filePath fileText = Except.ok (some fileText))
    ∧ ((setConfig f gc pc).exports.formatResult = 1 →
        formatText (setConfig f gc pc) filePath fileText
          = Except.ok (some f.exports.formattedText))
    ∧ ((setConfig f gc pc).exports.formatResult = 2 →
        formatText (setConfig f gc pc) filePath fileText
          = Except.error f.exports.errorText) := by
  refine ⟨rfl, ?_, ?_, ?_, ?_⟩
  · intro h
    refine ⟨?_, ?_, ?_⟩ <;>
      simp [formatText, getConfigDiagnostics, getResolvedConfig, throwIfConfigNotSet, h]
  · intro h
    simp only [setConfig] at h ⊢
    simp [formatText, throwIfConfigNotSet, h]
  · intro h
    simp only [setConfig] at h ⊢
    simp [formatText, throwIfConfigNotSet, h]
  · intro h
    simp only [setConfig] at h ⊢
    simp [formatText, throwIfConfigNotSet, h]

/-- A concrete wasm formatter whose `format()` reports an error. -/
def wasmFormatterW : WasmFormatter :=
  { configSet := false
    exports :=
      { formatResult := 2
        formattedText := "fmt"
        errorText := "boom"
        configDiagnostics := "[]"
        resolvedConfigText := "cfg" } }

/-- Witness for C9 at a concrete formatter: before `setConfig` the call
throws the fixed message, and after `setConfig` a response code 2 throws
the instance's error text. -/
theorem C9_wasm_wrapper_gating_witness :
    formatText wasmFormatterW "a.ts" "x" = Except.error configNotSetMessage
    ∧ formatText (setConfig wasmFormatterW "g" "p") "a.ts" "x" = Except.error "boom" := by
  have h := C9_wasm_wrapper_gating wasmFormatterW "a.ts" "x" "g" "p"
  exact ⟨(h.2.1 rfl).1, h.2.2.2.2 rfl⟩

/-- A file whose program has no statements and no comments. -/
def emptyFile : BabelFile :=
  ⟨BNode.program ⟨0, 0, ⟨⟨1, 0⟩, ⟨1, 0⟩⟩, [], [], []⟩ []⟩

/-- C8: `parseFile` wraps the file in one root group whose final item is
the trailing-newline condition, that condition's predicate holds exactly
when the writer moved past column 0 or line 0, and resolving the document
of an empty file yields the empty string. -/
theorem C8_parse_file_trailing_newline :
    (∀ file fileText options fuel,
      parseFile file fileText options fuel
        = PrintItem.group
            [(parseNode fuel (some file.program) (initialContext fileText options)).1,
             PrintItem.condition
               (endOfFileNewLineCondition (initialContext fileText options).newLineKind)])
    ∧ (∀ newLineKind rc,
        evalConditionAt (endOfFileNewLineCondition newLineKind) rc
          = some (decide (rc.writerInfo.columnNumber > 0)
              || decide (rc.writerInfo.lineNumber > 0))
        ∧ (endOfFileNewLineCondition newLineKind).whenTrue = some [PrintItem.text newLineKind])
    ∧ renderDocument 8 (parseFile emptyFile "" defaultOptions 4) "\n" = "" := by
  exact ⟨fun file fileText options fuel => rfl, fun newLineKind rc => ⟨rfl, rfl⟩, rfl⟩

/-- C5: every node kind with no dedicated handler parses without failing
into a group holding the de-indented original source slice, while the
logging callback receives exactly one message naming the kind and the
offending text (stated for nodes without attached comments, which the
claim does not involve). -/
theorem C5_unknown_node_passthrough (fuel : Nat) (i : NInfo) (t : String) (bp : Bool)
    (context : Context) (hl : i.leadingComments = []) (ht : i.trailingComments = []) :
    parseNode (fuel + 1) (some (BNode.other i t bp)) context
      = (PrintItem.group [PrintItem.unknown
            (removeStringIndentation (substringJS context.fileText i.startOff i.endOff))],
         {context with logs := context.logs
            ++ ["Not implemented node type: " ++ t ++ " ("
                ++ substringJS context.fileText i.startOff i.endOff ++ ")"]}) := by
  obtain ⟨so, eo, loc, lc, tc, ic⟩ := i
  dsimp only at hl ht
  subst hl
  subst ht
  rfl

/-- The node info of a concrete unhandled node spanning `debug` in the
file text `debugger;`. -/
def unknownInfoW : NInfo := ⟨0, 5, ⟨⟨1, 0⟩, ⟨1, 5⟩⟩, [], [], []⟩

/-- Witness for C5 at a concrete unhandled node kind. -/
theorem C5_unknown_node_passthrough_witness :
    parseNode 1 (some (BNode.other unknownInfoW "DebuggerStatement" false))
        (initialContext "debugger;" defaultOptions)
      = (PrintItem.group [PrintItem.unknown "debug"],
         {initialContext "debugger;" defaultOptions with
            logs := ["Not implemented node type: DebuggerStatement (debug)"]}) := by
  have h := C5_unknown_node_passthrough 0 unknownInfoW "DebuggerStatement" false
    (initialContext "debugger;" defaultOptions) rfl rfl
  exact h.trans (by rfl)

end Dprint

namespace Dprint

/-- When the resolved line numbers respect marker order, the source's
strict line comparison coincides with "the markers resolve to different
lines". -/
theorem isMultipleLines_eq_markersDiff (si ei : Info) (rc : ResolveConditionContext)
    (h : resolvedLinesOrdered rc si ei) :
    isMultipleLines si ei rc false = markersResolveToDifferentLines si ei rc := by
  unfold isMultipleLines markersResolveToDifferentLines
  cases hs : rc.getResolvedInfo si.id with
  | none => cases he : rc.getResolvedInfo ei.id <;> rfl
  | some s =>
    cases he : rc.getResolvedInfo ei.id with
    | none => rfl
    | some e =>
      have hle := h s e hs he
      by_cases heq : s.lineNumber = e.lineNumber
      · simp [heq]
      · simp [heq, lt_of_le_of_ne hle heq]

/-- C1: the open-brace condition of an if statement holds exactly when
the static braces-required flag is set, or the header markers resolve to
different lines, or the statements markers do (unresolved markers
defaulting to false, and resolved end markers never preceding their start
markers); the static flag itself holds exactly when the candidate body is
not exactly one statement or carries disqualifying comments (ignoring the
header's same-line trailing comments); and every if statement yields this
condition as its sixth item. -/
theorem C1_open_brace_condition_spec (context : Context) (requireBraces : Bool)
    (sh eh ss es : Info) (rc : ResolveConditionContext)
    (hh : resolvedLinesOrdered rc sh eh) (hb : resolvedLinesOrdered rc ss es) :
    evalConditionAt (openBraceCondition context requireBraces sh eh ss es) rc
      = some (requireBraces || markersResolveToDifferentLines sh eh rc
          || markersResolveToDifferentLines ss es rc)
    ∧ (∀ stmt ignore, consequentRequiresBraces stmt ignore
        = (!(bodyIsExactlyOneStatement stmt) || bodyCarriesDisqualifyingComment stmt ignore))
    ∧ (∀ pn test consequent c0,
        (parseIfStatement pn test consequent c0).1.get? 5
          = some (PrintItem.condition (openBraceCondition c0
              (consequentRequiresBraces consequent (getHeaderTrailingComments consequent))
              ⟨c0.infoCounter, "startHeader"⟩
              ⟨((pn (some test) {c0 with infoCounter := c0.infoCounter + 1}).2).infoCounter,
                "endHeader"⟩
              ⟨((pn (some test) {c0 with infoCounter := c0.infoCounter + 1}).2).infoCounter + 1,
                "startStatements"⟩
              ⟨((pn (some test) {c0 with infoCounter := c0.infoCounter + 1}).2).infoCounter + 2,
                "endStatements"⟩))) := by
  refine ⟨?_, ?_, ?_⟩
  · show some _ = _
    rw [isMultipleLines_eq_markersDiff sh eh rc hh, isMultipleLines_eq_markersDiff ss es rc hb]
  · intro stmt ignore
    cases stmt with
    | blockStatement info body =>
      match body with
      | [] => rfl
      | [single] =>
        simp [consequentRequiresBraces, bodyIsExactlyOneStatement, bodyCarriesDisqualifyingComment]
      | a :: b :: rest =>
        simp [consequentRequiresBraces, bodyIsExactlyOneStatement, bodyCarriesDisqualifyingComment,
          List.length]
    | «other» info t bp => rfl
    | program info body => rfl
    | identifier info name => rfl
    | exportNamedDeclaration info d => rfl
    | functionDeclaration i a g id tp ps rt b => rfl
    | tsTypeAliasDeclaration i id tp ann => rfl
    | importDeclaration i s src => rfl
    | expressionStatement i e => rfl
    | ifStatement i t c => rfl
    | callExpression i c a => rfl
    | importDefaultSpecifier i l => rfl
    | importNamespaceSpecifier i l => rfl
    | importSpecifier i im l => rfl
    | stringLiteral i v => rfl
    | booleanLiteral i v => rfl
    | tsStringKeyword i => rfl
    | tsNumberKeyword i => rfl
    | tsBooleanKeyword i => rfl
    | tsAnyKeyword i => rfl
    | tsUnknownKeyword i => rfl
    | tsObjectKeyword i => rfl
    | thisExpression i => rfl
    | tsTypeParameter i n c d => rfl
    | tsUnionType i t => rfl
    | typeParameterDeclaration i p => rfl
  · intro pn test consequent c0
    rfl

/-- A resolution context for the open-brace witness: the header markers
(ids 0 and 1) resolved to lines 1 and 2, the statements markers (ids 2
and 3) unresolved. -/
def rcC1 : ResolveConditionContext :=
  ⟨⟨0, 0, 0⟩, fun i =>
    if i == 0 then some ⟨1, 5, 0⟩
    else if i == 1 then some ⟨2, 0, 0⟩
    else none⟩

/-- Witness for C1 at a concrete context: a header spanning two resolved
lines triggers the open brace even without the static flag. -/
theorem C1_open_brace_condition_spec_witness :
    evalConditionAt (openBraceCondition (initialContext "" defaultOptions) false
        ⟨0, "startHeader"⟩ ⟨1, "endHeader"⟩ ⟨2, "startStatements"⟩ ⟨3, "endStatements"⟩) rcC1
      = some true := by
  have h := C1_open_brace_condition_spec (initialContext "" defaultOptions) false
      ⟨0, "startHeader"⟩ ⟨1, "endHeader"⟩ ⟨2, "startStatements"⟩ ⟨3, "endStatements"⟩ rcC1
      ?_ ?_
  · exact h.1.trans (by rfl)
  · intro s e hs he
    obtain rfl : (⟨1, 5, 0⟩ : WriterInfo) = s := by simpa [rcC1] using hs
    obtain rfl : (⟨2, 0, 0⟩ : WriterInfo) = e := by simpa [rcC1] using he
    decide
  · intro s e hs he
    simp [rcC1] at hs

/-- Appending two elements fixes the last element of a list. -/
theorem getLast?_append_two (l : List PrintItem) (a b : PrintItem) :
    (l ++ [a, b]).getLast? = some b := by
  induction l with
  | nil => rfl
  | cons x xs ih =>
    rw [List.cons_append]
    cases hxs : xs ++ [a, b] with
    | nil => exact absurd hxs (by simp)
    | cons y ys =>
      rw [List.getLast?_cons_cons]
      rw [← hxs]
      exact ih

/-- C4: the close-brace item of an if statement is a condition whose rule
is a reference to the very open-brace condition, whose `true` branch is
the conditional newline followed by the closing brace, and whose nested
newline condition holds exactly when the statements markers resolved to
different line/column positions; every if statement ends with this
condition. -/
theorem C4_close_brace_condition_spec (context : Context) (ob : Condition) (ss es : Info)
    (rc : ResolveConditionContext) (s e : WriterInfo)
    (hs : rc.getResolvedInfo ss.id = some s) (he : rc.getResolvedInfo es.id = some e) :
    (closeBraceCondition context ob ss es).rule = ConditionRule.ref ob
    ∧ (closeBraceCondition context ob ss es).whenTrue
        = some [PrintItem.condition (closeBraceNewLineCondition context ss es),
            PrintItem.text "\x7d"]
    ∧ evalConditionAt (closeBraceNewLineCondition context ss es) rc
        = some (decide (s.lineNumber ≠ e.lineNumber ∨ s.columnNumber ≠ e.columnNumber))
    ∧ (∀ pn test consequent c0,
        (parseIfStatement pn test consequent c0).1.getLast?
          = some (PrintItem.condition (closeBraceCondition c0
              (openBraceCondition c0
                (consequentRequiresBraces consequent (getHeaderTrailingComments consequent))
                ⟨c0.infoCounter, "startHeader"⟩
                ⟨((pn (some test) {c0 with infoCounter := c0.infoCounter + 1}).2).infoCounter,
                  "endHeader"⟩
                ⟨((pn (some test) {c0 with infoCounter := c0.infoCounter + 1}).2).infoCounter + 1,
                  "startStatements"⟩
                ⟨((pn (some test) {c0 with infoCounter := c0.infoCounter + 1}).2).infoCounter + 2,
                  "endStatements"⟩)
              ⟨((pn (some test) {c0 with infoCounter := c0.infoCounter + 1}).2).infoCounter + 1,
                "startStatements"⟩
              ⟨((pn (some test) {c0 with infoCounter := c0.infoCounter + 1}).2).infoCounter + 2,
                "endStatements"⟩))) := by
  refine ⟨rfl, rfl, ?_, ?_⟩
  · show some _ = _
    unfold areInfoEqual
    rw [hs, he]
    by_cases h1 : s.lineNumber = e.lineNumber <;> by_cases h2 : s.columnNumber = e.columnNumber <;>
      simp [h1, h2]
  · intro pn test consequent c0
    show (_ ++ [PrintItem.info _, PrintItem.condition _]).getLast? = _
    rw [getLast?_append_two]

end Dprint

namespace Dprint

/-- A resolution context for the close-brace witness: the statements
markers (ids 2 and 3) resolved to positions on different lines. -/
def rcC4 : ResolveConditionContext :=
  ⟨⟨0, 0, 0⟩, fun i =>
    if i == 2 then some ⟨3, 4, 1⟩
    else if i == 3 then some ⟨4, 4, 1⟩
    else none⟩

/-- Witness for C4 at a concrete context: statements markers resolved to
different lines make the pre-brace newline condition true. -/
theorem C4_close_brace_condition_spec_witness :
    evalConditionAt (closeBraceNewLineCondition (initialContext "" defaultOptions)
        ⟨2, "startStatements"⟩ ⟨3, "endStatements"⟩) rcC4 = some true := by
  have h := C4_close_brace_condition_spec (initialContext "" defaultOptions)
    (Condition.mk "openBrace" (ConditionRule.pred fun _ => none) none none)
    ⟨2, "startStatements"⟩ ⟨3, "endStatements"⟩ rcC4 ⟨3, 4, 1⟩ ⟨4, 4, 1⟩ rfl rfl
  exact h.2.2.1.trans (by rfl)

/-- A block comment starting two source lines after the previous element. -/
def commentC3 : Comment := ⟨0, CommentKind.commentBlock, " x ", ⟨⟨3, 0⟩, ⟨3, 7⟩⟩⟩

/-- A previous element ending on source line 1. -/
def lastNodeC3 : LastNode :=
  LastNode.node (BNode.identifier ⟨0, 1, ⟨⟨1, 0⟩, ⟨1, 1⟩⟩, [], [], []⟩ "a")

/-- C3 counterexample: a comment starting more than one source line after
the previous emitted element is preceded by three hard newlines — the
blank-line branch emits two and the strictly-lower-line branch fires as
well — not by exactly two as claimed. -/
theorem C3_comment_spacing_counterexample :
    (parseCommentCollection [commentC3] (some lastNodeC3) (initialContext "" defaultOptions)).1
      = [PrintItem.text "\n", PrintItem.text "\n", PrintItem.text "\n",
        PrintItem.text "/*", PrintItem.text " x ", PrintItem.text "*/"] := by
  rfl

/-- The two spacing if-chains agree: the source's pair of independent
conditions equals the amended single chain. -/
theorem commentSpacing_code_eq_spec (newLineKind : String) (last : LastNode) (comment : Comment) :
    ((if last.endLine < comment.loc.start.line - 1 then
        [PrintItem.text newLineKind, PrintItem.text newLineKind]
      else ([] : List PrintItem))
      ++ (if last.endLine < comment.loc.start.line then [PrintItem.text newLineKind]
          else if comment.kind == CommentKind.commentLine then [PrintItem.text " "]
          else if last.isCommentBlock then [PrintItem.text " "]
          else []))
      = commentSpacingSpec newLineKind last comment := by
  unfold commentSpacingSpec
  by_cases h1 : last.endLine < comment.loc.start.line - 1
  · have h2 : last.endLine < comment.loc.start.line := by omega
    simp [h1, h2]
  · simp [h1]

/-- C3 amended: before an unhandled comment following a previous element,
the collection parser emits three hard newlines when the comment starts
more than one source line later, one hard newline when exactly one line
later, and on the same line a single space only when the comment is a
line comment or the previous element is a block comment (nothing
otherwise); the comment then becomes the previous element for the rest. -/
theorem C3_amended_comment_spacing (comment : Comment) (rest : List Comment) (last : LastNode)
    (context : Context) (h : context.handledComments.contains comment.id = false) :
    (parseCommentCollection (comment :: rest) (some last) context).1
      = commentSpacingSpec context.newLineKind last comment
        ++ commentContentItems comment
        ++ (parseCommentCollection rest (some (LastNode.comment comment))
            {context with handledComments := comment.id :: context.handledComments}).1 := by
  rw [parseCommentCollection]
  rw [h]
  simp only [Bool.false_eq_true, if_false]
  unfold parseComment
  rw [h]
  simp only [Bool.false_eq_true, if_false]
  rw [← commentSpacing_code_eq_spec context.newLineKind last comment]

/-- A line comment starting exactly one line after a block comment. -/
def commentC3W : Comment := ⟨7, CommentKind.commentLine, " hi ", ⟨⟨2, 0⟩, ⟨2, 7⟩⟩⟩

/-- The previous element for the C3 witness. -/
def lastNodeC3W : LastNode :=
  LastNode.comment ⟨6, CommentKind.commentBlock, "b", ⟨⟨1, 0⟩, ⟨1, 5⟩⟩⟩

/-- Witness for the amended C3 at a concrete comment: exactly one hard
newline before a comment starting one line after the previous element. -/
theorem C3_amended_comment_spacing_witness :
    (parseCommentCollection [commentC3W] (some lastNodeC3W) (initialContext "" defaultOptions)).1
      = [PrintItem.text "\n", PrintItem.text "// hi",
        PrintItem.behaviour Behaviour.ExpectNewLine] := by
  have h := C3_amended_comment_spacing commentC3W [] lastNodeC3W
    (initialContext "" defaultOptions) rfl
  exact h.trans (by rfl)

/-- `parseComment` never removes an id from the handled set. -/
theorem parseComment_preserves_handled (c : Comment) (context : Context) (i : Nat)
    (h : context.handledComments.contains i = true) :
    (parseComment c context).2.handledComments.contains i = true := by
  unfold parseComment
  by_cases hc : context.handledComments.contains c.id = true
  · rw [if_pos hc]
    exact h
  · rw [if_neg hc]
    dsimp only
    rw [List.contains_cons, h]
    simp

/-- `parseCommentCollection` never removes an id from the handled set. -/
theorem parseCommentCollection_preserves_handled (comments : List Comment)
    (last : Option LastNode) (context : Context) (i : Nat)
    (h : context.handledComments.contains i = true) :
    (parseCommentCollection comments last context).2.handledComments.contains i = true := by
  induction comments generalizing last context with
  | nil => exact h
  | cons c rest ih =>
    rw [parseCommentCollection.eq_def]
    dsimp only
    by_cases hc : context.handledComments.contains c.id = true
    · rw [if_pos hc]
      exact ih _ _ h
    · rw [if_neg hc]
      dsimp only
      exact ih _ _ (parseComment_preserves_handled c context i h)

/-- Processing a collection containing a comment's id leaves that id in
the handled set. -/
theorem parseCommentCollection_marks (comments : List Comment) (last : Option LastNode)
    (context : Context) (c : Comment)
    (h : comments.any (fun x => x.id == c.id) = true) :
    (parseCommentCollection comments last context).2.handledComments.contains c.id = true := by
  induction comments generalizing last context with
  | nil => simp at h
  | cons x rest ih =>
    rw [parseCommentCollection.eq_def]
    dsimp only
    rcases (by simpa using h :
        x.id = c.id ∨ rest.any (fun y => y.id == c.id) = true) with h1 | h2
    · by_cases hc : context.handledComments.contains x.id = true
      · rw [if_pos hc]
        rw [← h1]
        exact parseCommentCollection_preserves_handled rest last context x.id hc
      · rw [if_neg hc]
        dsimp only
        rw [← h1]
        refine parseCommentCollection_preserves_handled rest _ _ x.id ?_
        unfold parseComment
        rw [if_neg hc]
        dsimp only
        rw [List.contains_cons]
        simp
    · by_cases hc : context.handledComments.contains x.id = true
      · rw [if_pos hc]
        exact ih _ _ h2
      · rw [if_neg hc]
        dsimp only
        exact ih _ _ h2

/-- C6: a comment already in the per-file handled set is skipped by every
emission path (`parseComment` yields nothing and leaves the context
unchanged; the collection parser drops it entirely, and never unmarks
it), while an unhandled comment is recorded in the set in the same step
that emits its content — so a comment listed under several nodes'
collections is emitted exactly once. -/
theorem C6_comment_dedup (c : Comment) (context : Context) :
    (context.handledComments.contains c.id = true → parseComment c context = ([], context))
    ∧ (context.handledComments.contains c.id = false →
        (parseComment c context).1 = commentContentItems c
        ∧ (parseComment c context).2.handledComments.contains c.id = true)
    ∧ (∀ rest last, context.handledComments.contains c.id = true →
        parseCommentCollection (c :: rest) last context
          = parseCommentCollection rest last context)
    ∧ (∀ comments last, context.handledComments.contains c.id = true →
        (parseCommentCollection comments last context).2.handledComments.contains c.id = true)
    ∧ (∀ comments last, comments.any (fun x => x.id == c.id) = true →
        (parseCommentCollection comments last context).2.handledComments.contains c.id
          = true) := by
  refine ⟨?_, ?_, ?_, ?_, ?_⟩
  · intro h
    unfold parseComment
    rw [if_pos h]
  · intro h
    have h2 : ¬(context.handledComments.contains c.id = true) := by
      rw [h]
      exact Bool.false_ne_true
    unfold parseComment
    rw [if_neg h2]
    refine ⟨rfl, ?_⟩
    dsimp only
    rw [List.contains_cons]
    simp
  · intro rest last h
    rw [parseCommentCollection.eq_def]
    dsimp only
    rw [if_pos h]
  · intro comments last h
    exact parseCommentCollection_preserves_handled comments last context c.id h
  · intro comments last h
    exact parseCommentCollection_marks comments last context c h

/-- A concrete comment for the C6 witness. -/
def commentC6 : Comment := ⟨9, CommentKind.commentBlock, "dup", ⟨⟨1, 0⟩, ⟨1, 7⟩⟩⟩

/-- Witness for C6 at a concrete comment: emitting from a fresh context
produces the content and marks the comment; a second collection listing
the same comment afterwards emits nothing further. -/
theorem C6_comment_dedup_witness :
    (parseComment commentC6 (initialContext "" defaultOptions)).1
        = commentContentItems commentC6
    ∧ (parseCommentCollection [commentC6] none
        (initialContext "" defaultOptions)).2.handledComments.contains commentC6.id = true := by
  have h := C6_comment_dedup commentC6 (initialContext "" defaultOptions)
  exact ⟨(h.2.1 rfl).1, h.2.2.2.2 [commentC6] none (by rfl)⟩

/-- The statements loop produces exactly the rendered statements joined
with the claim-side separators. -/
theorem parseStatementsAux_interleaves (pn : ParseNodeFn) (newLineKind : String)
    (stmts : List BNode) (prev : Option BNode) (context : Context) :
    parseStatementsAux pn newLineKind prev stmts context
      = (interleaveStatementsSpec newLineKind prev (renderStatementsSpec pn stmts context).1,
         (renderStatementsSpec pn stmts context).2) := by
  induction stmts generalizing prev context with
  | nil => cases prev <;> rfl
  | cons s rest ih =>
    rw [parseStatementsAux.eq_def, renderStatementsSpec.eq_def]
    dsimp only
    cases hpn : pn (some s) context with
    | mk g c1 =>
      rw [ih]
      cases prev with
      | none => simp [interleaveStatementsSpec]
      | some p => simp [interleaveStatementsSpec, statementSeparatorSpec]

/-- C7: a statement sequence (program or block body, inner comments
aside) is laid out as the statements joined by exactly one hard newline,
doubled to two exactly when either neighbouring statement carries a body
block; no other separation is produced. -/
theorem C7_statement_sequence_separators (pn : ParseNodeFn) (block : BNode) (context : Context)
    (hinner : block.innerComments = []) :
    (parseStatements pn block context).1
      = interleaveStatementsSpec context.newLineKind none
          (renderStatementsSpec pn block.bodyStatements context).1
    ∧ (∀ p s, statementSeparatorSpec context.newLineKind p s
        = if hasBody p || hasBody s
          then [PrintItem.text context.newLineKind, PrintItem.text context.newLineKind]
          else [PrintItem.text context.newLineKind]) := by
  constructor
  · unfold parseStatements
    rw [parseStatementsAux_interleaves, hinner]
    simp [parseCommentCollection]
  · intro p s
    rfl

/-- An expression statement on line 1. -/
def stmtExprW : BNode :=
  BNode.expressionStatement ⟨0, 2, ⟨⟨1, 0⟩, ⟨1, 2⟩⟩, [], [], []⟩
    (BNode.identifier ⟨0, 1, ⟨⟨1, 0⟩, ⟨1, 1⟩⟩, [], [], []⟩ "a")

/-- A function declaration (a statement carrying a body block). -/
def stmtFnW : BNode :=
  BNode.functionDeclaration ⟨4, 20, ⟨⟨2, 0⟩, ⟨3, 1⟩⟩, [], [], []⟩ false false
    (some (BNode.identifier ⟨13, 14, ⟨⟨2, 9⟩, ⟨2, 10⟩⟩, [], [], []⟩ "f"))
    none [] none
    (BNode.blockStatement ⟨17, 19, ⟨⟨2, 13⟩, ⟨3, 1⟩⟩, [], [], []⟩ [])

/-- A program body with the two statements above. -/
def blockW : BNode :=
  BNode.program ⟨0, 20, ⟨⟨1, 0⟩, ⟨3, 1⟩⟩, [], [], []⟩ [stmtExprW, stmtFnW]

/-- Witness for C7 at a concrete two-statement program (the second
statement carries a body, so the separator is doubled). -/
theorem C7_statement_sequence_separators_witness :
    (parseStatements (parseNode 4) blockW (initialContext "" defaultOptions)).1
      = interleaveStatementsSpec (initialContext "" defaultOptions).newLineKind none
          (renderStatementsSpec (parseNode 4) blockW.bodyStatements
            (initialContext "" defaultOptions)).1 := by
  exact (C7_statement_sequence_separators (parseNode 4) blockW
    (initialContext "" defaultOptions) rfl).1

end Dprint
